import Mathlib

/-!
# neko: the WebRTC data-channel handler

A shallow embedding of `WebRTCManagerCtx.handle`
(`server/internal/webrtc/handler.go`) and the properties of its
decode / role-gate / dispatch pipeline.

The handler is a function of the received bytes, the sender's host flag and
the answers of its collaborators (clock, data channel, desktop).  Its
outcome is the returned error together with the ordered trace of the calls
it made on the collaborators.
-/

namespace Neko

/-! ## Bytes and fixed-width big-endian integers (`encoding/binary`) -/

/-- One octet of a message buffer. -/
abbrev Byte := Fin 256

/-- Value of a byte string read as one big-endian unsigned integer
(`binary.BigEndian.Uint16/32/64` at the widths 2, 4 and 8). -/
def beNat : List Byte → Nat
  | [] => 0
  | b :: bs => b.val * 256 ^ bs.length + beNat bs

/-- The `w` bytes of the big-endian encoding of `n`, most significant first;
the value is truncated modulo `256 ^ w` as a Go conversion to the field's
unsigned type does (`binary.BigEndian.PutUint16/32/64`). -/
def putBE : Nat → Nat → List Byte
  | 0, _ => []
  | w + 1, n => ⟨(n / 256 ^ w) % 256, Nat.mod_lt _ (by decide)⟩ :: putBE w n

/-- Go conversion `uint32(n)` of an unsigned value. -/
def uint32 (n : Nat) : Nat := n % 2 ^ 32

/-- Go conversion `uint64(v)` of a signed 64-bit value. -/
def uint64 (v : Int) : Nat := (v % 2 ^ 64).toNat

/-- The signed value of a 16-bit pattern (two's complement), as Go's `int16`
field read by `binary.Read`, then widened by `int(...)`. -/
def int16 (n : Nat) : Int :=
  if n % 2 ^ 16 < 2 ^ 15 then ((n % 2 ^ 16 : Nat) : Int) else ((n % 2 ^ 16 : Nat) : Int) - 2 ^ 16

/-- Constant `math.MaxUint32`. -/
def MaxUint32 : Nat := 2 ^ 32 - 1

/-! ## Errors and the read cursor (`bytes.Buffer`, `binary.Read`) -/

/-- Errors in play: the two `io` errors of a short read, whatever error the
data channel's `Send` reported, and the errors a desktop operation reports
(which `handle` logs and never returns). -/
inductive Error where
  | EOF
  | ErrUnexpectedEOF
  | sendFailed (code : Nat)
  | desktopFailed (code : Nat)
  deriving DecidableEq, Repr

/-- Read exactly `n` bytes off the front of the buffer (`io.ReadFull` on a
`bytes.Buffer`, as `binary.Read` does for a fixed-size struct): the bytes read
and the rest of the buffer, or `io.EOF` when bytes are wanted and none is
left, `io.ErrUnexpectedEOF` when only some are. -/
def readFull (n : Nat) (buffer : List Byte) : Except Error (List Byte × List Byte) :=
  if n ≤ buffer.length then .ok (buffer.take n, buffer.drop n)
  else if buffer.length = 0 then .error .EOF
  else .error .ErrUnexpectedEOF

/-! ## Package `payload` -/

/-- Modelled from the spec: `payload.Header`, whose declaration is not in the
source tree.  Two big-endian unsigned 16-bit fields, opcode then declared
length. -/
structure Header where
  Event : Nat
  Length : Nat
  deriving DecidableEq, Repr

/-- Modelled from the spec: `payload.Move`, two signed 16-bit fields. -/
structure Move where
  X : Int
  Y : Int
  deriving DecidableEq, Repr

/-- Modelled from the spec: `payload.Scroll_Old`, the legacy scroll body of two
signed 16-bit fields. -/
structure Scroll_Old where
  X : Int
  Y : Int
  deriving DecidableEq, Repr

/-- Modelled from the spec: `payload.Scroll`, two signed 16-bit fields and a
one-byte boolean. -/
structure Scroll where
  DeltaX : Int
  DeltaY : Int
  ControlKey : Bool
  deriving DecidableEq, Repr

/-- Modelled from the spec: `payload.Key`, one unsigned 32-bit code shared by
the key and button messages. -/
structure Key where
  Key : Nat
  deriving DecidableEq, Repr

/-- Modelled from the spec: `payload.Touch`, an unsigned 32-bit id, two signed
16-bit coordinates and an unsigned 8-bit pressure. -/
structure Touch where
  TouchId : Nat
  X : Int
  Y : Int
  Pressure : Nat
  deriving DecidableEq, Repr

/-- The declarations of package `payload` that the handler uses and the spec
leaves open: the numeric opcodes, and the layout of `payload.Ping` given as
the byte widths of its integer fields, in order. -/
structure Payload where
  OP_MOVE : Nat
  OP_SCROLL : Nat
  OP_KEY_DOWN : Nat
  OP_KEY_UP : Nat
  OP_BTN_DOWN : Nat
  OP_BTN_UP : Nat
  OP_PING : Nat
  OP_TOUCH_BEGIN : Nat
  OP_TOUCH_UPDATE : Nat
  OP_TOUCH_END : Nat
  OP_PONG : Nat
  pingFields : List Nat

/-- The request opcodes, in the order the handler tests them. -/
def Payload.requestOps (p : Payload) : List Nat :=
  [p.OP_MOVE, p.OP_PING, p.OP_SCROLL, p.OP_KEY_DOWN, p.OP_KEY_UP, p.OP_BTN_DOWN,
   p.OP_BTN_UP, p.OP_TOUCH_BEGIN, p.OP_TOUCH_UPDATE, p.OP_TOUCH_END]

/-- Width in bytes of the header on the wire. -/
def headerSize : Nat := 4

/-- Width in bytes of an encoded `payload.Ping`. -/
def Payload.pingSize (p : Payload) : Nat := p.pingFields.sum

/-- Decode consecutive big-endian integer fields of the given widths. -/
def decodeFields : List Nat → List Byte → List Nat
  | [], _ => []
  | w :: ws, bs => beNat (bs.take w) :: decodeFields ws (bs.drop w)

/-- Encode consecutive big-endian integer fields of the given widths. -/
def encodeFields : List Nat → List Nat → List Byte
  | w :: ws, v :: vs => putBE w v ++ encodeFields ws vs
  | _, _ => []

/-- `binary.Read(buffer, binary.BigEndian, header)`. -/
def readHeader (buffer : List Byte) : Except Error (Header × List Byte) :=
  match readFull headerSize buffer with
  | .error e => .error e
  | .ok (b, rest) => .ok (⟨beNat (b.take 2), beNat (b.drop 2)⟩, rest)

/-- `binary.Write(buffer, binary.BigEndian, header)`. -/
def writeHeader (h : Header) : List Byte := putBE 2 h.Event ++ putBE 2 h.Length

/-- `binary.Read` of a `payload.Move`. -/
def readMove (buffer : List Byte) : Except Error (Move × List Byte) :=
  match readFull 4 buffer with
  | .error e => .error e
  | .ok (b, rest) => .ok (⟨int16 (beNat (b.take 2)), int16 (beNat (b.drop 2))⟩, rest)

/-- `binary.Read` of a `payload.Scroll_Old`. -/
def readScrollOld (buffer : List Byte) : Except Error (Scroll_Old × List Byte) :=
  match readFull 4 buffer with
  | .error e => .error e
  | .ok (b, rest) => .ok (⟨int16 (beNat (b.take 2)), int16 (beNat (b.drop 2))⟩, rest)

/-- `binary.Read` of a `payload.Scroll`; a boolean byte is true when non-zero. -/
def readScroll (buffer : List Byte) : Except Error (Scroll × List Byte) :=
  match readFull 5 buffer with
  | .error e => .error e
  | .ok (b, rest) =>
    .ok (⟨int16 (beNat (b.take 2)), int16 (beNat ((b.drop 2).take 2)),
          decide (beNat (b.drop 4) ≠ 0)⟩, rest)

/-- `binary.Read` of a `payload.Key`. -/
def readKey (buffer : List Byte) : Except Error (Key × List Byte) :=
  match readFull 4 buffer with
  | .error e => .error e
  | .ok (b, rest) => .ok (⟨beNat b⟩, rest)

/-- `binary.Read` of a `payload.Touch`. -/
def readTouch (buffer : List Byte) : Except Error (Touch × List Byte) :=
  match readFull 9 buffer with
  | .error e => .error e
  | .ok (b, rest) =>
    .ok (⟨beNat (b.take 4), int16 (beNat ((b.drop 4).take 2)),
          int16 (beNat ((b.drop 6).take 2)), beNat (b.drop 8)⟩, rest)

/-- `binary.Read` of a `payload.Ping`: its integer fields, in order. -/
def readPing (p : Payload) (buffer : List Byte) : Except Error (List Nat × List Byte) :=
  match readFull p.pingSize buffer with
  | .error e => .error e
  | .ok (b, rest) => .ok (decodeFields p.pingFields b, rest)

/-- `binary.Write` of a `payload.Pong`: the embedded `Ping`, then the two
unsigned 32-bit server-timestamp words. -/
def writePong (p : Payload) (ping : List Nat) (ServerTs1 ServerTs2 : Nat) : List Byte :=
  encodeFields p.pingFields ping ++ putBE 4 ServerTs1 ++ putBE 4 ServerTs2

/-! ## Collaborators and outcomes -/

/-- A call made by the handler on one of its collaborators: the desktop
(`manager.desktop`), the authoritative cursor record (`manager.curPosition`),
the sender's session, or the data channel. -/
inductive Effect where
  | Move (x y : Int)
  | CurPositionSet (x y : Int)
  | SetCursor (x y : Int)
  | Send (bytes : List Byte)
  | Scroll (x y : Int) (controlKey : Bool)
  | KeyDown (key : Nat)
  | KeyUp (key : Nat)
  | ButtonDown (key : Nat)
  | ButtonUp (key : Nat)
  | TouchBegin (touchId : Nat) (x y : Int) (pressure : Nat)
  | TouchUpdate (touchId : Nat) (x y : Int) (pressure : Nat)
  | TouchEnd (touchId : Nat) (x y : Int) (pressure : Nat)
  deriving DecidableEq, Repr

/-- Severity of a log record. -/
inductive Level where
  | Trace
  | Warn
  deriving DecidableEq, Repr

/-- What the collaborators answer during one call of the handler: the wall
clock, the result of the data channel's `Send`, and the results of the
desktop operations that can fail (`none` is Go's `nil` error). -/
structure Env where
  unixMilli : Int
  send : List Byte → Option Error
  keyDown : Nat → Option Error
  keyUp : Nat → Option Error
  buttonDown : Nat → Option Error
  buttonUp : Nat → Option Error
  touchBegin : Nat → Int → Int → Nat → Option Error
  touchUpdate : Nat → Int → Int → Nat → Option Error
  touchEnd : Nat → Int → Int → Nat → Option Error

/-- Result of one call of the handler: the returned error (`none` is `nil`),
the calls made on the collaborators in order, and the log records emitted
(level only; logging never affects control flow). -/
structure Outcome where
  err : Option Error
  effects : List Effect
  log : List Level
  deriving DecidableEq, Repr

/-- Log a warning when the desktop call failed, a trace record otherwise. -/
def logResult (r : Option Error) : List Level :=
  match r with
  | some _ => [.Warn]
  | none => [.Trace]

/-- The handler `WebRTCManagerCtx.handle`. -/
def handle (p : Payload) (env : Env) (isHost : Bool) (data : List Byte) : Outcome :=
  -- parse header
  match readHeader data with
  | .error e => ⟨some e, [], []⟩
  | .ok (header, buffer) =>
    -- parse body
    if header.Event = p.OP_MOVE then
      match readMove buffer with
      | .error e => ⟨some e, [], []⟩
      | .ok (payload, _) =>
        if isHost then
          ⟨none, [.Move payload.X payload.Y, .CurPositionSet payload.X payload.Y], []⟩
        else
          ⟨none, [.SetCursor payload.X payload.Y], []⟩
    else if header.Event = p.OP_PING then
      match readPing p buffer with
      | .error e => ⟨some e, [], []⟩
      | .ok (ping, _) =>
        -- create pong header
        let header : Header := ⟨p.OP_PONG, 19⟩
        -- generate server timestamp
        let serverTs := uint64 env.unixMilli
        -- generate pong payload; writing fixed-size values to a fresh buffer cannot fail
        let bytes := writeHeader header ++
          writePong p ping (uint32 (serverTs / MaxUint32)) (uint32 (serverTs % MaxUint32))
        ⟨env.send bytes, [.Send bytes], []⟩
    -- continue only if session is host
    else if !isHost then ⟨none, [], []⟩
    else if header.Event = p.OP_SCROLL then
      if header.Length = 4 then
        match readScrollOld buffer with
        | .error e => ⟨some e, [], []⟩
        | .ok (payload, _) => ⟨none, [.Scroll payload.X payload.Y false], [.Trace]⟩
      else
        match readScroll buffer with
        | .error e => ⟨some e, [], []⟩
        | .ok (payload, _) =>
          ⟨none, [.Scroll payload.DeltaX payload.DeltaY payload.ControlKey], [.Trace]⟩
    else if header.Event = p.OP_KEY_DOWN then
      match readKey buffer with
      | .error e => ⟨some e, [], []⟩
      | .ok (payload, _) =>
        ⟨none, [.KeyDown payload.Key], logResult (env.keyDown payload.Key)⟩
    else if header.Event = p.OP_KEY_UP then
      match readKey buffer with
      | .error e => ⟨some e, [], []⟩
      | .ok (payload, _) =>
        ⟨none, [.KeyUp payload.Key], logResult (env.keyUp payload.Key)⟩
    else if header.Event = p.OP_BTN_DOWN then
      match readKey buffer with
      | .error e => ⟨some e, [], []⟩
      | .ok (payload, _) =>
        ⟨none, [.ButtonDown payload.Key], logResult (env.buttonDown payload.Key)⟩
    else if header.Event = p.OP_BTN_UP then
      match readKey buffer with
      | .error e => ⟨some e, [], []⟩
      | .ok (payload, _) =>
        ⟨none, [.ButtonUp payload.Key], logResult (env.buttonUp payload.Key)⟩
    else if header.Event = p.OP_TOUCH_BEGIN then
      match readTouch buffer with
      | .error e => ⟨some e, [], []⟩
      | .ok (payload, _) =>
        ⟨none, [.TouchBegin payload.TouchId payload.X payload.Y payload.Pressure],
          logResult (env.touchBegin payload.TouchId payload.X payload.Y payload.Pressure)⟩
    else if header.Event = p.OP_TOUCH_UPDATE then
      match readTouch buffer with
      | .error e => ⟨some e, [], []⟩
      | .ok (payload, _) =>
        ⟨none, [.TouchUpdate payload.TouchId payload.X payload.Y payload.Pressure],
          logResult (env.touchUpdate payload.TouchId payload.X payload.Y payload.Pressure)⟩
    else if header.Event = p.OP_TOUCH_END then
      match readTouch buffer with
      | .error e => ⟨some e, [], []⟩
      | .ok (payload, _) =>
        ⟨none, [.TouchEnd payload.TouchId payload.X payload.Y payload.Pressure],
          logResult (env.touchEnd payload.TouchId payload.X payload.Y payload.Pressure)⟩
    else ⟨none, [], []⟩

/-! ## Vocabulary of the properties -/

/-- The call is one of the Desktop Control operations. -/
def Effect.isDesktopCall : Effect → Bool
  | .Move _ _ => true
  | .Scroll _ _ _ => true
  | .KeyDown _ => true
  | .KeyUp _ => true
  | .ButtonDown _ => true
  | .ButtonUp _ => true
  | .TouchBegin _ _ _ _ => true
  | .TouchUpdate _ _ _ _ => true
  | .TouchEnd _ _ _ _ => true
  | _ => false

/-- The call writes the authoritative cursor-position record. -/
def Effect.isCurPositionSet : Effect → Bool
  | .CurPositionSet _ _ => true
  | _ => false

/-- A sample instance of package `payload`: request opcodes 1 to 10, reply
opcode 3, and a `Ping` of two unsigned 32-bit client-timestamp words. -/
def samplePayload : Payload :=
  { OP_MOVE := 1, OP_SCROLL := 2, OP_KEY_DOWN := 3, OP_KEY_UP := 4, OP_BTN_DOWN := 5,
    OP_BTN_UP := 6, OP_PING := 7, OP_TOUCH_BEGIN := 8, OP_TOUCH_UPDATE := 9,
    OP_TOUCH_END := 10, OP_PONG := 3, pingFields := [4, 4] }

/-- A sample environment: clock at the given millisecond, every collaborator
call succeeds. -/
def sampleEnv (unixMilli : Int) : Env :=
  { unixMilli := unixMilli, send := fun _ => none, keyDown := fun _ => none,
    keyUp := fun _ => none, buttonDown := fun _ => none, buttonUp := fun _ => none,
    touchBegin := fun _ _ _ _ => none, touchUpdate := fun _ _ _ _ => none,
    touchEnd := fun _ _ _ _ => none }

/-- Opcode field of a four-byte header. -/
def opcodeOf (hdr : List Byte) : Nat := beNat (hdr.take 2)

/-- Declared-length field of a four-byte header. -/
def declaredLength (hdr : List Byte) : Nat := beNat (hdr.drop 2)

/-- Width in bytes of the body shape that belongs to an opcode and, for
Scroll, to the declared length (legacy shape at 4, current shape otherwise);
`none` for an opcode that is not a request opcode. -/
def Payload.bodyWidth (p : Payload) (ev len : Nat) : Option Nat :=
  if ev = p.OP_MOVE then some 4
  else if ev = p.OP_PING then some p.pingSize
  else if ev = p.OP_SCROLL then some (if len = 4 then 4 else 5)
  else if ev ∈ [p.OP_KEY_DOWN, p.OP_KEY_UP, p.OP_BTN_DOWN, p.OP_BTN_UP] then some 4
  else if ev ∈ [p.OP_TOUCH_BEGIN, p.OP_TOUCH_UPDATE, p.OP_TOUCH_END] then some 9
  else none

/-- The key, button and touch opcodes: those whose desktop operation returns
an error value. -/
def Payload.fallibleOps (p : Payload) : List Nat :=
  [p.OP_KEY_DOWN, p.OP_KEY_UP, p.OP_BTN_DOWN, p.OP_BTN_UP,
   p.OP_TOUCH_BEGIN, p.OP_TOUCH_UPDATE, p.OP_TOUCH_END]

/-- A sample environment in which every desktop operation and the data
channel's `Send` fail. -/
def failingEnv (unixMilli : Int) : Env :=
  { unixMilli := unixMilli, send := fun _ => some (.sendFailed 1),
    keyDown := fun _ => some (.desktopFailed 1), keyUp := fun _ => some (.desktopFailed 2),
    buttonDown := fun _ => some (.desktopFailed 3),
    buttonUp := fun _ => some (.desktopFailed 4),
    touchBegin := fun _ _ _ _ => some (.desktopFailed 5),
    touchUpdate := fun _ _ _ _ => some (.desktopFailed 6),
    touchEnd := fun _ _ _ _ => some (.desktopFailed 7) }

/-- A Pong message as its receiver sees it: the header, the echoed Ping
fields, and the two server-timestamp words. -/
structure PongMessage where
  header : Header
  ping : List Nat
  ServerTs1 : Nat
  ServerTs2 : Nat
  deriving DecidableEq, Repr

/-- Decoding of a reply by its receiver, with the layout the handler wrote it
in: the header, then the Ping fields, then two big-endian unsigned 32-bit
words. -/
def readPongMessage (p : Payload) (buffer : List Byte) : Except Error PongMessage :=
  match readHeader buffer with
  | .error e => .error e
  | .ok (header, rest) =>
    match readPing p rest with
    | .error e => .error e
    | .ok (ping, rest) =>
      match readFull 8 rest with
      | .error e => .error e
      | .ok (b, _) => .ok ⟨header, ping, beNat (b.take 4), beNat (b.drop 4)⟩

/-- Re-encoding of a decoded Pong message in the same layout. -/
def writePongMessage (p : Payload) (m : PongMessage) : List Byte :=
  writeHeader m.header ++ writePong p m.ping m.ServerTs1 m.ServerTs2

/-- Number of body bytes the handler reads for a message: the width of the
body shape when the body is decoded (Move or Ping from any sender, any request
opcode from the host), none otherwise. -/
def Payload.consumed (p : Payload) (isHost : Bool) (ev len : Nat) : Nat :=
  if isHost = true ∨ ev = p.OP_MOVE ∨ ev = p.OP_PING then (p.bodyWidth ev len).getD 0 else 0

theorem beNat_lt (bs : List Byte) : beNat bs < 256 ^ bs.length := by
  induction bs with
  | nil => simp [beNat]
  | cons b bs ih =>
    have hb : b.val ≤ 255 := by omega
    have h1 : b.val * 256 ^ bs.length ≤ 255 * 256 ^ bs.length := Nat.mul_le_mul_right _ hb
    simp only [beNat, List.length_cons, pow_succ]
    omega

theorem beNat_one (b0 : Byte) : beNat [b0] = b0.val := by
  simp [beNat]

theorem beNat_two (b0 b1 : Byte) : beNat [b0, b1] = 256 * b0.val + b1.val := by
  simp only [beNat, List.length_cons, List.length_nil]
  norm_num
  ring

theorem beNat_four (b0 b1 b2 b3 : Byte) :
    beNat [b0, b1, b2, b3] = 16777216 * b0.val + 65536 * b1.val + 256 * b2.val + b3.val := by
  simp only [beNat, List.length_cons, List.length_nil]
  norm_num
  ring

theorem putBE_mod (w n : Nat) : putBE w n = putBE w (n % 256 ^ w) := by
  induction w generalizing n with
  | zero => simp [putBE]
  | succ w ih =>
    have hhead : (n % 256 ^ (w + 1)) / 256 ^ w % 256 = n / 256 ^ w % 256 := by
      rw [pow_succ, Nat.mod_mul_right_div_self, Nat.mod_mod]
    have htail : putBE w (n % 256 ^ (w + 1)) = putBE w n := by
      rw [ih (n % 256 ^ (w + 1)), Nat.mod_mod_of_dvd n (pow_dvd_pow 256 (Nat.le_succ w)), ← ih n]
    simp only [putBE, hhead, htail]

theorem putBE_length (w n : Nat) : (putBE w n).length = w := by
  induction w with
  | zero => simp [putBE]
  | succ w ih => simp [putBE, ih]

theorem putBE_beNat (bs : List Byte) : putBE bs.length (beNat bs) = bs := by
  induction bs with
  | nil => simp [putBE]
  | cons b bs ih =>
    have hlt := beNat_lt bs
    have hpos : 0 < 256 ^ bs.length := Nat.pow_pos (by decide)
    have hhead : (b.val * 256 ^ bs.length + beNat bs) / 256 ^ bs.length % 256 = b.val := by
      rw [Nat.add_comm, Nat.add_mul_div_right _ _ hpos, Nat.div_eq_of_lt hlt, Nat.zero_add]
      exact Nat.mod_eq_of_lt b.isLt
    have htail : putBE bs.length (b.val * 256 ^ bs.length + beNat bs) = bs := by
      rw [putBE_mod, Nat.add_comm, Nat.add_mul_mod_self_right, ← putBE_mod, ih]
    simp only [List.length_cons, putBE, beNat, htail, List.cons.injEq, and_true]
    exact Fin.ext hhead

theorem encodeFields_decodeFields (ws : List Nat) (bs : List Byte) (h : bs.length = ws.sum) :
    encodeFields ws (decodeFields ws bs) = bs := by
  induction ws generalizing bs with
  | nil =>
    have : bs = [] := List.length_eq_zero.mp (by simpa using h)
    simp [encodeFields, decodeFields, this]
  | cons w ws ih =>
    simp only [List.sum_cons] at h
    have hw : (bs.take w).length = w := by simp; omega
    have hd : (bs.drop w).length = ws.sum := by simp; omega
    have h1 : putBE w (beNat (bs.take w)) = bs.take w := by
      have := putBE_beNat (bs.take w)
      rwa [hw] at this
    simp only [encodeFields, decodeFields, h1, ih _ hd, List.take_append_drop]

theorem beNat_putBE (w n : Nat) : beNat (putBE w n) = n % 256 ^ w := by
  induction w with
  | zero => simp [putBE, beNat, Nat.mod_one]
  | succ w ih =>
    simp only [putBE, beNat, putBE_length, ih]
    rw [pow_succ, Nat.mod_mul, Nat.mul_comm (256 ^ w)]
    omega

theorem uint64_lt (v : Int) : uint64 v < 2 ^ 64 := by
  unfold uint64
  have h1 : 0 ≤ v % 2 ^ 64 := Int.emod_nonneg _ (by norm_num)
  have h2 : v % 2 ^ 64 < 2 ^ 64 := Int.emod_lt_of_pos _ (by norm_num)
  omega

theorem uint64_natCast (ts : Nat) (h : ts < 2 ^ 64) : uint64 (ts : Int) = ts := by
  unfold uint64
  have h1 : ((ts : Int)) % 2 ^ 64 = ts := Int.emod_eq_of_lt (by omega) (by exact_mod_cast h)
  rw [h1]
  simp

theorem encodeFields_length (ws : List Nat) (bs : List Byte) (h : bs.length = ws.sum) :
    (encodeFields ws (decodeFields ws bs)).length = ws.sum := by
  rw [encodeFields_decodeFields ws bs h, h]

theorem readFull_append (n : Nat) (a b : List Byte) (h : a.length = n) :
    readFull n (a ++ b) = .ok (a, b) := by
  subst h
  simp [readFull]

theorem readFull_ok (n : Nat) (buffer : List Byte) (h : n ≤ buffer.length) :
    readFull n buffer = .ok (buffer.take n, buffer.drop n) := by
  simp [readFull, h]

theorem readFull_short (n : Nat) (buffer : List Byte) (h : buffer.length < n) :
    readFull n buffer = .error (if buffer.length = 0 then .EOF else .ErrUnexpectedEOF) := by
  have : ¬ n ≤ buffer.length := by omega
  simp only [readFull, this, if_false]
  split <;> rfl

theorem readHeader_append (hdr body : List Byte) (h : hdr.length = headerSize) :
    readHeader (hdr ++ body) = .ok (⟨opcodeOf hdr, declaredLength hdr⟩, body) := by
  simp [readHeader, readFull_append _ _ _ h, opcodeOf, declaredLength]

theorem readHeader_writeHeader (h : Header) (rest : List Byte) :
    readHeader (writeHeader h ++ rest) = .ok (⟨h.Event % 2 ^ 16, h.Length % 2 ^ 16⟩, rest) := by
  have hl : (writeHeader h).length = headerSize := by
    simp [writeHeader, putBE_length, headerSize]
  rw [readHeader_append _ _ hl]
  have h1 : (writeHeader h).take 2 = putBE 2 h.Event := by
    simp [writeHeader, List.take_append_of_le_length, putBE_length]
  have h2 : (writeHeader h).drop 2 = putBE 2 h.Length := by
    simp [writeHeader, List.drop_append_of_le_length, putBE_length]
  simp only [opcodeOf, declaredLength, h1, h2, beNat_putBE]
  norm_num

theorem readMove_short (buffer : List Byte) (h : buffer.length < 4) :
    ∃ e, readMove buffer = .error e :=
  ⟨_, by rw [readMove, readFull_short 4 buffer h]⟩

theorem readScrollOld_short (buffer : List Byte) (h : buffer.length < 4) :
    ∃ e, readScrollOld buffer = .error e :=
  ⟨_, by rw [readScrollOld, readFull_short 4 buffer h]⟩

theorem readScroll_short (buffer : List Byte) (h : buffer.length < 5) :
    ∃ e, readScroll buffer = .error e :=
  ⟨_, by rw [readScroll, readFull_short 5 buffer h]⟩

theorem readKey_short (buffer : List Byte) (h : buffer.length < 4) :
    ∃ e, readKey buffer = .error e :=
  ⟨_, by rw [readKey, readFull_short 4 buffer h]⟩

theorem readTouch_short (buffer : List Byte) (h : buffer.length < 9) :
    ∃ e, readTouch buffer = .error e :=
  ⟨_, by rw [readTouch, readFull_short 9 buffer h]⟩

theorem readPing_short (p : Payload) (buffer : List Byte) (h : buffer.length < p.pingSize) :
    ∃ e, readPing p buffer = .error e :=
  ⟨_, by rw [readPing, readFull_short p.pingSize buffer h]⟩

theorem readMove_ok (buffer : List Byte) (h : 4 ≤ buffer.length) :
    ∃ v, readMove buffer = .ok (v, buffer.drop 4) :=
  ⟨_, by rw [readMove, readFull_ok 4 buffer h]⟩

theorem readKey_ok (buffer : List Byte) (h : 4 ≤ buffer.length) :
    ∃ v, readKey buffer = .ok (v, buffer.drop 4) :=
  ⟨_, by rw [readKey, readFull_ok 4 buffer h]⟩

theorem readTouch_ok (buffer : List Byte) (h : 9 ≤ buffer.length) :
    ∃ v, readTouch buffer = .ok (v, buffer.drop 9) :=
  ⟨_, by rw [readTouch, readFull_ok 9 buffer h]⟩

theorem readFull_append_extra (n : Nat) (body extra : List Byte) (h : n ≤ body.length) :
    readFull n (body ++ extra) = .ok (body.take n, body.drop n ++ extra) := by
  have h2 : n ≤ (body ++ extra).length := by rw [List.length_append]; omega
  rw [readFull_ok n _ h2, List.take_append_of_le_length h, List.drop_append_of_le_length h]

theorem readMove_extra (body extra : List Byte) (h : 4 ≤ body.length) :
    ∃ v r1 r2, readMove (body ++ extra) = .ok (v, r1) ∧ readMove body = .ok (v, r2) :=
  ⟨_, _, _, by rw [readMove, readFull_append_extra 4 body extra h],
    by rw [readMove, readFull_ok 4 body h]⟩

theorem readScrollOld_extra (body extra : List Byte) (h : 4 ≤ body.length) :
    ∃ v r1 r2, readScrollOld (body ++ extra) = .ok (v, r1) ∧ readScrollOld body = .ok (v, r2) :=
  ⟨_, _, _, by rw [readScrollOld, readFull_append_extra 4 body extra h],
    by rw [readScrollOld, readFull_ok 4 body h]⟩

theorem readScroll_extra (body extra : List Byte) (h : 5 ≤ body.length) :
    ∃ v r1 r2, readScroll (body ++ extra) = .ok (v, r1) ∧ readScroll body = .ok (v, r2) :=
  ⟨_, _, _, by rw [readScroll, readFull_append_extra 5 body extra h],
    by rw [readScroll, readFull_ok 5 body h]⟩

theorem readKey_extra (body extra : List Byte) (h : 4 ≤ body.length) :
    ∃ v r1 r2, readKey (body ++ extra) = .ok (v, r1) ∧ readKey body = .ok (v, r2) :=
  ⟨_, _, _, by rw [readKey, readFull_append_extra 4 body extra h],
    by rw [readKey, readFull_ok 4 body h]⟩

theorem readTouch_extra (body extra : List Byte) (h : 9 ≤ body.length) :
    ∃ v r1 r2, readTouch (body ++ extra) = .ok (v, r1) ∧ readTouch body = .ok (v, r2) :=
  ⟨_, _, _, by rw [readTouch, readFull_append_extra 9 body extra h],
    by rw [readTouch, readFull_ok 9 body h]⟩

theorem readPing_extra (p : Payload) (body extra : List Byte) (h : p.pingSize ≤ body.length) :
    ∃ v r1 r2, readPing p (body ++ extra) = .ok (v, r1) ∧ readPing p body = .ok (v, r2) :=
  ⟨_, _, _, by rw [readPing, readFull_append_extra p.pingSize body extra h],
    by rw [readPing, readFull_ok p.pingSize body h]⟩

/-- Pairwise distinct request opcodes, spelled out: each opcode differs from
every opcode the handler tests before it. -/
theorem requestOps_distinct (p : Payload) (hnd : p.requestOps.Nodup) :
    p.OP_PING ≠ p.OP_MOVE ∧ p.OP_SCROLL ≠ p.OP_MOVE ∧ p.OP_SCROLL ≠ p.OP_PING ∧
    p.OP_KEY_DOWN ≠ p.OP_MOVE ∧ p.OP_KEY_DOWN ≠ p.OP_PING ∧ p.OP_KEY_DOWN ≠ p.OP_SCROLL ∧
    p.OP_KEY_UP ≠ p.OP_MOVE ∧ p.OP_KEY_UP ≠ p.OP_PING ∧ p.OP_KEY_UP ≠ p.OP_SCROLL ∧
    p.OP_KEY_UP ≠ p.OP_KEY_DOWN ∧ p.OP_BTN_DOWN ≠ p.OP_MOVE ∧ p.OP_BTN_DOWN ≠ p.OP_PING ∧
    p.OP_BTN_DOWN ≠ p.OP_SCROLL ∧ p.OP_BTN_DOWN ≠ p.OP_KEY_DOWN ∧ p.OP_BTN_DOWN ≠ p.OP_KEY_UP ∧
    p.OP_BTN_UP ≠ p.OP_MOVE ∧ p.OP_BTN_UP ≠ p.OP_PING ∧ p.OP_BTN_UP ≠ p.OP_SCROLL ∧
    p.OP_BTN_UP ≠ p.OP_KEY_DOWN ∧ p.OP_BTN_UP ≠ p.OP_KEY_UP ∧ p.OP_BTN_UP ≠ p.OP_BTN_DOWN ∧
    p.OP_TOUCH_BEGIN ≠ p.OP_MOVE ∧ p.OP_TOUCH_BEGIN ≠ p.OP_PING ∧
    p.OP_TOUCH_BEGIN ≠ p.OP_SCROLL ∧ p.OP_TOUCH_BEGIN ≠ p.OP_KEY_DOWN ∧
    p.OP_TOUCH_BEGIN ≠ p.OP_KEY_UP ∧ p.OP_TOUCH_BEGIN ≠ p.OP_BTN_DOWN ∧
    p.OP_TOUCH_BEGIN ≠ p.OP_BTN_UP ∧ p.OP_TOUCH_UPDATE ≠ p.OP_MOVE ∧
    p.OP_TOUCH_UPDATE ≠ p.OP_PING ∧ p.OP_TOUCH_UPDATE ≠ p.OP_SCROLL ∧
    p.OP_TOUCH_UPDATE ≠ p.OP_KEY_DOWN ∧ p.OP_TOUCH_UPDATE ≠ p.OP_KEY_UP ∧
    p.OP_TOUCH_UPDATE ≠ p.OP_BTN_DOWN ∧ p.OP_TOUCH_UPDATE ≠ p.OP_BTN_UP ∧
    p.OP_TOUCH_UPDATE ≠ p.OP_TOUCH_BEGIN ∧ p.OP_TOUCH_END ≠ p.OP_MOVE ∧
    p.OP_TOUCH_END ≠ p.OP_PING ∧ p.OP_TOUCH_END ≠ p.OP_SCROLL ∧ p.OP_TOUCH_END ≠ p.OP_KEY_DOWN ∧
    p.OP_TOUCH_END ≠ p.OP_KEY_UP ∧ p.OP_TOUCH_END ≠ p.OP_BTN_DOWN ∧
    p.OP_TOUCH_END ≠ p.OP_BTN_UP ∧ p.OP_TOUCH_END ≠ p.OP_TOUCH_BEGIN ∧
    p.OP_TOUCH_END ≠ p.OP_TOUCH_UPDATE := by
  and_intros
  all_goals (intro h; simp [Payload.requestOps, h] at hnd)

/-! ## Dispatch: the branch taken for each request opcode -/

theorem handle_eq_ping (p : Payload) (env : Env) (isHost : Bool) (hdr body : List Byte)
    (hnd : p.requestOps.Nodup) (hlen : hdr.length = headerSize)
    (hop : opcodeOf hdr = p.OP_PING) :
    handle p env isHost (hdr ++ body) =
      match readPing p body with
      | .error e => ⟨some e, [], []⟩
      | .ok (ping, _) =>
        ⟨env.send (writeHeader ⟨p.OP_PONG, 19⟩ ++
            writePong p ping (uint32 (uint64 env.unixMilli / MaxUint32))
              (uint32 (uint64 env.unixMilli % MaxUint32))),
          [.Send (writeHeader ⟨p.OP_PONG, 19⟩ ++
            writePong p ping (uint32 (uint64 env.unixMilli / MaxUint32))
              (uint32 (uint64 env.unixMilli % MaxUint32)))], []⟩ := by
  have hd := requestOps_distinct p hnd
  simp only [handle, readHeader_append hdr body hlen, hop, hd, if_true, if_false]

theorem handle_eq_scroll (p : Payload) (env : Env) (hdr body : List Byte)
    (hnd : p.requestOps.Nodup) (hlen : hdr.length = headerSize)
    (hop : opcodeOf hdr = p.OP_SCROLL) :
    handle p env true (hdr ++ body) =
      if declaredLength hdr = 4 then
        match readScrollOld body with
        | .error e => ⟨some e, [], []⟩
        | .ok (payload, _) => ⟨none, [.Scroll payload.X payload.Y false], [.Trace]⟩
      else
        match readScroll body with
        | .error e => ⟨some e, [], []⟩
        | .ok (payload, _) =>
          ⟨none, [.Scroll payload.DeltaX payload.DeltaY payload.ControlKey], [.Trace]⟩ := by
  have hd := requestOps_distinct p hnd
  simp only [handle, readHeader_append hdr body hlen, hop, hd, if_true, if_false, Bool.not_true,
    Bool.false_eq_true]

theorem handle_eq_keyDown (p : Payload) (env : Env) (hdr body : List Byte)
    (hnd : p.requestOps.Nodup) (hlen : hdr.length = headerSize)
    (hop : opcodeOf hdr = p.OP_KEY_DOWN) :
    handle p env true (hdr ++ body) =
      match readKey body with
      | .error e => ⟨some e, [], []⟩
      | .ok (payload, _) =>
        ⟨none, [.KeyDown payload.Key], logResult (env.keyDown payload.Key)⟩ := by
  have hd := requestOps_distinct p hnd
  simp only [handle, readHeader_append hdr body hlen, hop, hd, if_true, if_false, Bool.not_true,
    Bool.false_eq_true]

theorem handle_eq_keyUp (p : Payload) (env : Env) (hdr body : List Byte)
    (hnd : p.requestOps.Nodup) (hlen : hdr.length = headerSize)
    (hop : opcodeOf hdr = p.OP_KEY_UP) :
    handle p env true (hdr ++ body) =
      match readKey body with
      | .error e => ⟨some e, [], []⟩
      | .ok (payload, _) =>
        ⟨none, [.KeyUp payload.Key], logResult (env.keyUp payload.Key)⟩ := by
  have hd := requestOps_distinct p hnd
  simp only [handle, readHeader_append hdr body hlen, hop, hd, if_true, if_false, Bool.not_true,
    Bool.false_eq_true]

theorem handle_eq_buttonDown (p : Payload) (env : Env) (hdr body : List Byte)
    (hnd : p.requestOps.Nodup) (hlen : hdr.length = headerSize)
    (hop : opcodeOf hdr = p.OP_BTN_DOWN) :
    handle p env true (hdr ++ body) =
      match readKey body with
      | .error e => ⟨some e, [], []⟩
      | .ok (payload, _) =>
        ⟨none, [.ButtonDown payload.Key], logResult (env.buttonDown payload.Key)⟩ := by
  have hd := requestOps_distinct p hnd
  simp only [handle, readHeader_append hdr body hlen, hop, hd, if_true, if_false, Bool.not_true,
    Bool.false_eq_true]

theorem handle_eq_buttonUp (p : Payload) (env : Env) (hdr body : List Byte)
    (hnd : p.requestOps.Nodup) (hlen : hdr.length = headerSize)
    (hop : opcodeOf hdr = p.OP_BTN_UP) :
    handle p env true (hdr ++ body) =
      match readKey body with
      | .error e => ⟨some e, [], []⟩
      | .ok (payload, _) =>
        ⟨none, [.ButtonUp payload.Key], logResult (env.buttonUp payload.Key)⟩ := by
  have hd := requestOps_distinct p hnd
  simp only [handle, readHeader_append hdr body hlen, hop, hd, if_true, if_false, Bool.not_true,
    Bool.false_eq_true]

theorem handle_eq_touchBegin (p : Payload) (env : Env) (hdr body : List Byte)
    (hnd : p.requestOps.Nodup) (hlen : hdr.length = headerSize)
    (hop : opcodeOf hdr = p.OP_TOUCH_BEGIN) :
    handle p env true (hdr ++ body) =
      match readTouch body with
      | .error e => ⟨some e, [], []⟩
      | .ok (payload, _) =>
        ⟨none, [.TouchBegin payload.TouchId payload.X payload.Y payload.Pressure],
          logResult (env.touchBegin payload.TouchId payload.X payload.Y payload.Pressure)⟩ := by
  have hd := requestOps_distinct p hnd
  simp only [handle, readHeader_append hdr body hlen, hop, hd, if_true, if_false, Bool.not_true,
    Bool.false_eq_true]

theorem handle_eq_touchUpdate (p : Payload) (env : Env) (hdr body : List Byte)
    (hnd : p.requestOps.Nodup) (hlen : hdr.length = headerSize)
    (hop : opcodeOf hdr = p.OP_TOUCH_UPDATE) :
    handle p env true (hdr ++ body) =
      match readTouch body with
      | .error e => ⟨some e, [], []⟩
      | .ok (payload, _) =>
        ⟨none, [.TouchUpdate payload.TouchId payload.X payload.Y payload.Pressure],
          logResult (env.touchUpdate payload.TouchId payload.X payload.Y payload.Pressure)⟩ := by
  have hd := requestOps_distinct p hnd
  simp only [handle, readHeader_append hdr body hlen, hop, hd, if_true, if_false, Bool.not_true,
    Bool.false_eq_true]

theorem handle_eq_touchEnd (p : Payload) (env : Env) (hdr body : List Byte)
    (hnd : p.requestOps.Nodup) (hlen : hdr.length = headerSize)
    (hop : opcodeOf hdr = p.OP_TOUCH_END) :
    handle p env true (hdr ++ body) =
      match readTouch body with
      | .error e => ⟨some e, [], []⟩
      | .ok (payload, _) =>
        ⟨none, [.TouchEnd payload.TouchId payload.X payload.Y payload.Pressure],
          logResult (env.touchEnd payload.TouchId payload.X payload.Y payload.Pressure)⟩ := by
  have hd := requestOps_distinct p hnd
  simp only [handle, readHeader_append hdr body hlen, hop, hd, if_true, if_false, Bool.not_true,
    Bool.false_eq_true]

/-! ## The role gate -/

/-- C1: for every input buffer, a non-host sender makes the handler perform no
Desktop Control call and no write of the authoritative cursor-position
record. -/
theorem handle_nonhost_no_desktop_mutation (p : Payload) (env : Env) (data : List Byte) :
    ∀ e ∈ (handle p env false data).effects,
      e.isDesktopCall = false ∧ e.isCurPositionSet = false := by
  intro e he
  unfold handle at he
  simp only [Bool.false_eq_true, if_false, Bool.not_false, if_true] at he
  split at he
  · simp at he
  · split_ifs at he
    · split at he
      · simp at he
      · simp only [List.mem_singleton] at he
        subst he
        simp [Effect.isDesktopCall, Effect.isCurPositionSet]
    · split at he
      · simp at he
      · simp only [List.mem_singleton] at he
        subst he
        simp [Effect.isDesktopCall, Effect.isCurPositionSet]
    · simp at he

theorem handle_nonhost_no_desktop_mutation_witness :
    Effect.SetCursor (-2) 7 ∈
        (handle samplePayload (sampleEnv 0) false [0, 1, 0, 4, 0xff, 0xfe, 0, 7]).effects ∧
      (Effect.SetCursor (-2) 7).isDesktopCall = false ∧
      (Effect.SetCursor (-2) 7).isCurPositionSet = false :=
  ⟨by decide, handle_nonhost_no_desktop_mutation samplePayload (sampleEnv 0)
    [0, 1, 0, 4, 0xff, 0xfe, 0, 7] (Effect.SetCursor (-2) 7) (by decide)⟩

/-- C2: a buffer with a complete header whose opcode is neither Move nor Ping,
from a non-host sender, is a silent no-op: success, no call on any
collaborator, no reply, whatever follows the header. -/
theorem handle_nonhost_gated_noop (p : Payload) (env : Env) (hdr body : List Byte)
    (hlen : hdr.length = headerSize)
    (hmove : opcodeOf hdr ≠ p.OP_MOVE) (hping : opcodeOf hdr ≠ p.OP_PING) :
    handle p env false (hdr ++ body) = ⟨none, [], []⟩ := by
  simp [handle, readHeader_append hdr body hlen, hmove, hping]

theorem handle_nonhost_gated_noop_witness :
    handle samplePayload (sampleEnv 0) false ([0, 3, 0, 4] ++ []) = ⟨none, [], []⟩ :=
  handle_nonhost_gated_noop samplePayload (sampleEnv 0) [0, 3, 0, 4] [] (by decide)
    (by decide) (by decide)

/-! ## Move -/

/-- C3: a Move message with at least four body bytes, `(x, y)` being the two
big-endian signed 16-bit integers leading the body: from the host it calls
the desktop's `Move(x, y)` once and sets the authoritative position to the
same pair, leaving the advisory cursor alone; from a non-host it only sets
the sender's advisory cursor.  Either way it succeeds and sends nothing. -/
theorem handle_move (p : Payload) (env : Env) (isHost : Bool) (hdr rest : List Byte)
    (b0 b1 b2 b3 : Byte) (hlen : hdr.length = headerSize) (hop : opcodeOf hdr = p.OP_MOVE) :
    handle p env isHost (hdr ++ b0 :: b1 :: b2 :: b3 :: rest) =
      ⟨none,
       if isHost then
         [.Move (int16 (256 * b0.val + b1.val)) (int16 (256 * b2.val + b3.val)),
          .CurPositionSet (int16 (256 * b0.val + b1.val)) (int16 (256 * b2.val + b3.val))]
       else [.SetCursor (int16 (256 * b0.val + b1.val)) (int16 (256 * b2.val + b3.val))],
       []⟩ := by
  have hx : b0.val * 256 + b1.val = 256 * b0.val + b1.val := by omega
  have hy : b2.val * 256 + b3.val = 256 * b2.val + b3.val := by omega
  cases isHost <;>
    simp [handle, readHeader_append hdr _ hlen, hop, readMove, readFull, beNat, hx, hy]

theorem handle_move_witness :
    handle samplePayload (sampleEnv 0) true ([0, 1, 0, 4] ++ 0xff :: 0xfe :: 0 :: 7 :: []) =
      ⟨none, [.Move (-2) 7, .CurPositionSet (-2) 7], []⟩ :=
  (handle_move samplePayload (sampleEnv 0) true [0, 1, 0, 4] [] 0xff 0xfe 0 7 (by decide)
    (by decide)).trans (by decide)

/-! ## Ping -/

/-- C4: a Ping message carrying a complete Ping payload is answered, for a
host and a non-host alike, by exactly one `Send` and nothing else; the reply
is the header `{Pong, 19}`, the received Ping bytes unchanged, then the two
big-endian unsigned 32-bit server-timestamp words.  The reply does not depend
on the host flag. -/
theorem handle_ping (p : Payload) (env : Env) (isHost : Bool) (hdr ping rest : List Byte)
    (hnd : p.requestOps.Nodup) (hlen : hdr.length = headerSize)
    (hop : opcodeOf hdr = p.OP_PING) (hping : ping.length = p.pingSize) :
    (handle p env isHost (hdr ++ ping ++ rest)).effects =
      [.Send (putBE 2 p.OP_PONG ++ putBE 2 19 ++ ping ++
        putBE 4 (uint32 (uint64 env.unixMilli / MaxUint32)) ++
        putBE 4 (uint32 (uint64 env.unixMilli % MaxUint32)))] := by
  have hne : p.OP_PING ≠ p.OP_MOVE := by
    intro h
    simp [Payload.requestOps, h] at hnd
  have hread : readPing p (ping ++ rest) = .ok (decodeFields p.pingFields ping, rest) := by
    simp [readPing, readFull_append _ ping rest hping]
  have hrt := encodeFields_decodeFields p.pingFields ping hping
  simp [handle, List.append_assoc, readHeader_append hdr _ hlen, hop, hne, hread, writeHeader,
    writePong, hrt]

theorem handle_ping_witness :
    (handle samplePayload (sampleEnv 5) false
        ([0, 7, 0, 8] ++ [1, 2, 3, 4, 5, 6, 7, 8] ++ [])).effects =
      [.Send [0, 3, 0, 19, 1, 2, 3, 4, 5, 6, 7, 8, 0, 0, 0, 0, 0, 0, 0, 5]] :=
  (handle_ping samplePayload (sampleEnv 5) false [0, 7, 0, 8] [1, 2, 3, 4, 5, 6, 7, 8] []
    (by decide) (by decide) (by decide) (by decide)).trans (by decide)

/-! ## Scroll -/

/-- C5: a Scroll message from the host with declared length 4 and at least
four body bytes calls `Scroll(x, y, false)` once, `(x, y)` being the two
big-endian signed 16-bit values of the body; with declared length 5 and at
least five body bytes it calls `Scroll(deltaX, deltaY, controlKey)` once, the
flag being the fifth byte read as a boolean.  Both return success. -/
theorem handle_scroll (p : Payload) (env : Env) (hdr rest : List Byte) (b0 b1 b2 b3 b4 : Byte)
    (hnd : p.requestOps.Nodup) (hlen : hdr.length = headerSize)
    (hop : opcodeOf hdr = p.OP_SCROLL) :
    (declaredLength hdr = 4 →
      handle p env true (hdr ++ b0 :: b1 :: b2 :: b3 :: rest) =
        ⟨none, [.Scroll (int16 (256 * b0.val + b1.val)) (int16 (256 * b2.val + b3.val)) false],
          [.Trace]⟩) ∧
    (declaredLength hdr = 5 →
      handle p env true (hdr ++ b0 :: b1 :: b2 :: b3 :: b4 :: rest) =
        ⟨none, [.Scroll (int16 (256 * b0.val + b1.val)) (int16 (256 * b2.val + b3.val))
          (decide (b4.val ≠ 0))], [.Trace]⟩) := by
  have hx : b0.val * 256 + b1.val = 256 * b0.val + b1.val := by omega
  have hy : b2.val * 256 + b3.val = 256 * b2.val + b3.val := by omega
  have hne : p.OP_SCROLL ≠ p.OP_MOVE ∧ p.OP_SCROLL ≠ p.OP_PING := by
    simp only [Payload.requestOps, List.nodup_cons, List.mem_cons, not_or] at hnd
    exact ⟨fun h => hnd.1.2.1 h.symm, fun h => hnd.2.1.1 h.symm⟩
  constructor
  · intro h4
    simp [handle, readHeader_append hdr _ hlen, hop, hne, h4, readScrollOld, readFull, beNat,
      hx, hy]
  · intro h5
    simp [handle, readHeader_append hdr _ hlen, hop, hne, h5, readScroll, readFull, beNat,
      hx, hy]

theorem handle_scroll_witness :
    (declaredLength [0, 2, 0, 4] = 4 ∧
      handle samplePayload (sampleEnv 0) true ([0, 2, 0, 4] ++ 0 :: 3 :: 0xff :: 0xff :: []) =
        ⟨none, [.Scroll 3 (-1) false], [.Trace]⟩) ∧
    (declaredLength [0, 2, 0, 5] = 5 ∧
      handle samplePayload (sampleEnv 0) true
          ([0, 2, 0, 5] ++ 0 :: 3 :: 0xff :: 0xff :: 1 :: []) =
        ⟨none, [.Scroll 3 (-1) true], [.Trace]⟩) :=
  ⟨⟨by decide, ((handle_scroll samplePayload (sampleEnv 0) [0, 2, 0, 4] [] 0 3 0xff 0xff 0
      (by decide) (by decide) (by decide)).1 (by decide)).trans (by decide)⟩,
   ⟨by decide, ((handle_scroll samplePayload (sampleEnv 0) [0, 2, 0, 5] [] 0 3 0xff 0xff 1
      (by decide) (by decide) (by decide)).2 (by decide)).trans (by decide)⟩⟩

/-- C8: whenever the body of a message is decoded (Move or Ping from any
sender, the other request opcodes from the host) and fewer bytes follow the
header than the width of the body shape for that opcode and variant, the
handler returns an error and produces no effect at all. -/
theorem handle_short_body (p : Payload) (env : Env) (isHost : Bool) (hdr body : List Byte)
    (w : Nat) (hlen : hdr.length = headerSize)
    (hdec : isHost = true ∨ opcodeOf hdr = p.OP_MOVE ∨ opcodeOf hdr = p.OP_PING)
    (hw : p.bodyWidth (opcodeOf hdr) (declaredLength hdr) = some w)
    (hshort : body.length < w) :
    ∃ e, handle p env isHost (hdr ++ body) = ⟨some e, [], []⟩ := by
  simp only [handle, readHeader_append hdr body hlen]
  simp only [Payload.bodyWidth, List.mem_cons, List.mem_singleton, List.not_mem_nil,
    or_false] at hw
  by_cases hm : opcodeOf hdr = p.OP_MOVE
  · simp only [hm, if_true, Option.some.injEq] at hw ⊢
    subst hw
    obtain ⟨e, he⟩ := readMove_short body hshort
    exact ⟨e, by rw [he]⟩
  simp only [hm, if_false] at hw ⊢
  by_cases hp : opcodeOf hdr = p.OP_PING
  · simp only [hp, if_true, Option.some.injEq] at hw ⊢
    subst hw
    obtain ⟨e, he⟩ := readPing_short p body hshort
    exact ⟨e, by rw [he]⟩
  simp only [hp, if_false] at hw ⊢
  have hh : isHost = true := by
    rcases hdec with h | h | h
    · exact h
    · exact absurd h hm
    · exact absurd h hp
  subst hh
  simp only [Bool.not_true, Bool.false_eq_true, if_false]
  by_cases hs : opcodeOf hdr = p.OP_SCROLL
  · simp only [hs, if_true, Option.some.injEq] at hw ⊢
    by_cases h4 : declaredLength hdr = 4
    · simp only [h4, if_true] at hw ⊢
      subst hw
      obtain ⟨e, he⟩ := readScrollOld_short body hshort
      exact ⟨e, by rw [he]⟩
    · simp only [h4, if_false] at hw ⊢
      subst hw
      obtain ⟨e, he⟩ := readScroll_short body hshort
      exact ⟨e, by rw [he]⟩
  simp only [hs, if_false] at hw ⊢
  by_cases hk : opcodeOf hdr = p.OP_KEY_DOWN ∨ opcodeOf hdr = p.OP_KEY_UP ∨
      opcodeOf hdr = p.OP_BTN_DOWN ∨ opcodeOf hdr = p.OP_BTN_UP
  · simp only [hk, if_true, Option.some.injEq] at hw
    subst hw
    obtain ⟨e, he⟩ := readKey_short body hshort
    refine ⟨e, ?_⟩
    rw [he]
    split_ifs <;> first | rfl | tauto
  simp only [hk, if_false] at hw
  by_cases ht : opcodeOf hdr = p.OP_TOUCH_BEGIN ∨ opcodeOf hdr = p.OP_TOUCH_UPDATE ∨
      opcodeOf hdr = p.OP_TOUCH_END
  · simp only [ht, if_true, Option.some.injEq] at hw
    subst hw
    obtain ⟨e, he⟩ := readTouch_short body hshort
    refine ⟨e, ?_⟩
    rw [he]
    split_ifs <;> first | rfl | tauto
  · simp only [ht, if_false] at hw
    exact absurd hw (by simp)

theorem handle_short_body_witness :
    ∃ e, handle samplePayload (sampleEnv 0) false ([0, 7, 0, 8] ++ [1, 2, 3]) =
      ⟨some e, [], []⟩ :=
  handle_short_body samplePayload (sampleEnv 0) false [0, 7, 0, 8] [1, 2, 3] 8 (by decide)
    (by decide) (by decide) (by decide)

/-! ## Header and unknown opcodes -/

/-- C9: a buffer shorter than the four-byte header, the empty buffer included,
makes the handler return an error without any effect, for a host and a
non-host alike; a buffer of at least four bytes always passes the header
step, which yields the opcode and declared length whatever their values. -/
theorem handle_header (p : Payload) (env : Env) (isHost : Bool) (data : List Byte) :
    (data.length < headerSize → ∃ e, handle p env isHost data = ⟨some e, [], []⟩) ∧
    (headerSize ≤ data.length →
      readHeader data =
        .ok (⟨opcodeOf (data.take headerSize), declaredLength (data.take headerSize)⟩,
          data.drop headerSize)) := by
  constructor
  · intro hs
    refine ⟨if data.length = 0 then .EOF else .ErrUnexpectedEOF, ?_⟩
    simp only [handle, readHeader, readFull_short headerSize data hs]
  · intro hl
    have h := readHeader_append (data.take headerSize) (data.drop headerSize)
      (by rw [List.length_take]; omega)
    rwa [List.take_append_drop] at h

theorem handle_header_witness :
    (([] : List Byte).length < headerSize ∧
      ∃ e, handle samplePayload (sampleEnv 0) true [] = ⟨some e, [], []⟩) ∧
    (headerSize ≤ ([0xff, 0xff, 0, 0] : List Byte).length ∧
      readHeader [0xff, 0xff, 0, 0] = .ok (⟨65535, 0⟩, [])) :=
  ⟨⟨by decide, (handle_header samplePayload (sampleEnv 0) true []).1 (by decide)⟩,
   ⟨by decide, ((handle_header samplePayload (sampleEnv 0) true [0xff, 0xff, 0, 0]).2
      (by decide)).trans rfl⟩⟩

/-- C10: a buffer with a complete header whose opcode is none of the request
opcodes is dropped: success and no effect, for a host and a non-host alike,
whatever the declared length and the body. -/
theorem handle_unknown_opcode (p : Payload) (env : Env) (isHost : Bool) (hdr body : List Byte)
    (hlen : hdr.length = headerSize) (hunk : opcodeOf hdr ∉ p.requestOps) :
    handle p env isHost (hdr ++ body) = ⟨none, [], []⟩ := by
  simp only [Payload.requestOps, List.mem_cons, List.mem_singleton, List.not_mem_nil,
    or_false, not_or] at hunk
  obtain ⟨h1, h2, h3, h4, h5, h6, h7, h8, h9, h10⟩ := hunk
  simp only [handle, readHeader_append hdr body hlen, h1, h2, h3, h4, h5, h6, h7, h8, h9, h10,
    if_false, ite_self]

theorem handle_unknown_opcode_witness :
    handle samplePayload (sampleEnv 0) true ([0, 99, 0, 4] ++ [1, 2, 3, 4]) = ⟨none, [], []⟩ :=
  handle_unknown_opcode samplePayload (sampleEnv 0) true [0, 99, 0, 4] [1, 2, 3, 4]
    (by decide) (by decide)

/-! ## Desktop operations: key, button, touch -/

/-- C11: for a well-formed key, button or touch message from the host, the
handler returns success whatever the desktop operation answers: under any two
environments, the one where the operation fails included, the result is `nil`
and the calls made are the same. -/
theorem handle_downstream_result_ignored (p : Payload) (env env2 : Env)
    (hdr body : List Byte) (w : Nat)
    (hnd : p.requestOps.Nodup) (hlen : hdr.length = headerSize)
    (hev : opcodeOf hdr ∈ p.fallibleOps)
    (hw : p.bodyWidth (opcodeOf hdr) (declaredLength hdr) = some w)
    (hbody : w ≤ body.length) :
    (handle p env true (hdr ++ body)).err = none ∧
    (handle p env2 true (hdr ++ body)).err = none ∧
    (handle p env true (hdr ++ body)).effects = (handle p env2 true (hdr ++ body)).effects := by
  have hd := requestOps_distinct p hnd
  simp only [Payload.fallibleOps, List.mem_cons, List.mem_singleton, List.not_mem_nil,
    or_false] at hev
  rcases hev with h | h | h | h | h | h | h
  · have hwv := hw
    simp only [Payload.bodyWidth, h, hd, if_false, List.mem_cons, List.mem_singleton,
      List.not_mem_nil, or_false, or_self, true_or, or_true, if_true,
      Option.some.injEq] at hwv
    subst hwv
    obtain ⟨v, hv⟩ := readKey_ok body hbody
    rw [handle_eq_keyDown p env hdr body hnd hlen h, handle_eq_keyDown p env2 hdr body hnd hlen h, hv]
    exact ⟨rfl, rfl, rfl⟩
  · have hwv := hw
    simp only [Payload.bodyWidth, h, hd, if_false, List.mem_cons, List.mem_singleton,
      List.not_mem_nil, or_false, or_self, true_or, or_true, if_true,
      Option.some.injEq] at hwv
    subst hwv
    obtain ⟨v, hv⟩ := readKey_ok body hbody
    rw [handle_eq_keyUp p env hdr body hnd hlen h, handle_eq_keyUp p env2 hdr body hnd hlen h, hv]
    exact ⟨rfl, rfl, rfl⟩
  · have hwv := hw
    simp only [Payload.bodyWidth, h, hd, if_false, List.mem_cons, List.mem_singleton,
      List.not_mem_nil, or_false, or_self, true_or, or_true, if_true,
      Option.some.injEq] at hwv
    subst hwv
    obtain ⟨v, hv⟩ := readKey_ok body hbody
    rw [handle_eq_buttonDown p env hdr body hnd hlen h, handle_eq_buttonDown p env2 hdr body hnd hlen h, hv]
    exact ⟨rfl, rfl, rfl⟩
  · have hwv := hw
    simp only [Payload.bodyWidth, h, hd, if_false, List.mem_cons, List.mem_singleton,
      List.not_mem_nil, or_false, or_self, true_or, or_true, if_true,
      Option.some.injEq] at hwv
    subst hwv
    obtain ⟨v, hv⟩ := readKey_ok body hbody
    rw [handle_eq_buttonUp p env hdr body hnd hlen h, handle_eq_buttonUp p env2 hdr body hnd hlen h, hv]
    exact ⟨rfl, rfl, rfl⟩
  · have hwv := hw
    simp only [Payload.bodyWidth, h, hd, if_false, List.mem_cons, List.mem_singleton,
      List.not_mem_nil, or_false, or_self, true_or, or_true, if_true,
      Option.some.injEq] at hwv
    subst hwv
    obtain ⟨v, hv⟩ := readTouch_ok body hbody
    rw [handle_eq_touchBegin p env hdr body hnd hlen h, handle_eq_touchBegin p env2 hdr body hnd hlen h, hv]
    exact ⟨rfl, rfl, rfl⟩
  · have hwv := hw
    simp only [Payload.bodyWidth, h, hd, if_false, List.mem_cons, List.mem_singleton,
      List.not_mem_nil, or_false, or_self, true_or, or_true, if_true,
      Option.some.injEq] at hwv
    subst hwv
    obtain ⟨v, hv⟩ := readTouch_ok body hbody
    rw [handle_eq_touchUpdate p env hdr body hnd hlen h, handle_eq_touchUpdate p env2 hdr body hnd hlen h, hv]
    exact ⟨rfl, rfl, rfl⟩
  · have hwv := hw
    simp only [Payload.bodyWidth, h, hd, if_false, List.mem_cons, List.mem_singleton,
      List.not_mem_nil, or_false, or_self, true_or, or_true, if_true,
      Option.some.injEq] at hwv
    subst hwv
    obtain ⟨v, hv⟩ := readTouch_ok body hbody
    rw [handle_eq_touchEnd p env hdr body hnd hlen h, handle_eq_touchEnd p env2 hdr body hnd hlen h, hv]
    exact ⟨rfl, rfl, rfl⟩

theorem handle_downstream_result_ignored_witness :
    (handle samplePayload (failingEnv 0) true ([0, 3, 0, 4] ++ [0xff, 0xff, 0xff, 0xff])).err
        = none ∧
    (handle samplePayload (sampleEnv 0) true ([0, 3, 0, 4] ++ [0xff, 0xff, 0xff, 0xff])).err
        = none ∧
    (handle samplePayload (failingEnv 0) true
        ([0, 3, 0, 4] ++ [0xff, 0xff, 0xff, 0xff])).effects =
      (handle samplePayload (sampleEnv 0) true
        ([0, 3, 0, 4] ++ [0xff, 0xff, 0xff, 0xff])).effects :=
  handle_downstream_result_ignored samplePayload (failingEnv 0) (sampleEnv 0) [0, 3, 0, 4]
    [0xff, 0xff, 0xff, 0xff] 4 (by decide) (by decide) (by decide) (by decide) (by decide)

/-- C12: for a well-formed Ping message the handler attempts the reply `Send`
exactly once, and what it returns is exactly what that `Send` returned: `nil`
when the send succeeded, the send's own error when it failed. -/
theorem handle_ping_result (p : Payload) (env : Env) (isHost : Bool)
    (hdr ping rest : List Byte)
    (hnd : p.requestOps.Nodup) (hlen : hdr.length = headerSize)
    (hop : opcodeOf hdr = p.OP_PING) (hping : ping.length = p.pingSize) :
    ∃ reply, (handle p env isHost (hdr ++ ping ++ rest)).effects = [.Send reply] ∧
      (handle p env isHost (hdr ++ ping ++ rest)).err = env.send reply := by
  have hread : readPing p (ping ++ rest) = .ok (decodeFields p.pingFields ping, rest) := by
    simp [readPing, readFull_append _ ping rest hping]
  rw [List.append_assoc, handle_eq_ping p env isHost hdr (ping ++ rest) hnd hlen hop, hread]
  exact ⟨_, rfl, rfl⟩

theorem handle_ping_result_witness :
    ∃ reply, (handle samplePayload (failingEnv 5) false
        ([0, 7, 0, 8] ++ [1, 2, 3, 4, 5, 6, 7, 8] ++ [])).effects = [.Send reply] ∧
      (handle samplePayload (failingEnv 5) false
        ([0, 7, 0, 8] ++ [1, 2, 3, 4, 5, 6, 7, 8] ++ [])).err = (failingEnv 5).send reply :=
  handle_ping_result samplePayload (failingEnv 5) false [0, 7, 0, 8] [1, 2, 3, 4, 5, 6, 7, 8] []
    (by decide) (by decide) (by decide) (by decide)

/-- C13: a KeyDown, KeyUp, ButtonDown or ButtonUp message from the host with
at least four body bytes makes exactly one call, the desktop operation of the
same name, with the code equal to the big-endian unsigned 32-bit value of the
first four body bytes; nothing is sent. -/
theorem handle_key_button (p : Payload) (env : Env) (hdr rest : List Byte) (b0 b1 b2 b3 : Byte)
    (hnd : p.requestOps.Nodup) (hlen : hdr.length = headerSize) :
    (opcodeOf hdr = p.OP_KEY_DOWN →
      (handle p env true (hdr ++ b0 :: b1 :: b2 :: b3 :: rest)).effects =
        [.KeyDown (16777216 * b0.val + 65536 * b1.val + 256 * b2.val + b3.val)]) ∧
    (opcodeOf hdr = p.OP_KEY_UP →
      (handle p env true (hdr ++ b0 :: b1 :: b2 :: b3 :: rest)).effects =
        [.KeyUp (16777216 * b0.val + 65536 * b1.val + 256 * b2.val + b3.val)]) ∧
    (opcodeOf hdr = p.OP_BTN_DOWN →
      (handle p env true (hdr ++ b0 :: b1 :: b2 :: b3 :: rest)).effects =
        [.ButtonDown (16777216 * b0.val + 65536 * b1.val + 256 * b2.val + b3.val)]) ∧
    (opcodeOf hdr = p.OP_BTN_UP →
      (handle p env true (hdr ++ b0 :: b1 :: b2 :: b3 :: rest)).effects =
        [.ButtonUp (16777216 * b0.val + 65536 * b1.val + 256 * b2.val + b3.val)]) := by
  have hread : readKey (b0 :: b1 :: b2 :: b3 :: rest) =
      .ok (⟨16777216 * b0.val + 65536 * b1.val + 256 * b2.val + b3.val⟩, rest) := by
    simp [readKey, readFull, beNat_four]
  refine ⟨fun h => ?_, fun h => ?_, fun h => ?_, fun h => ?_⟩
  · rw [handle_eq_keyDown p env hdr _ hnd hlen h, hread]
  · rw [handle_eq_keyUp p env hdr _ hnd hlen h, hread]
  · rw [handle_eq_buttonDown p env hdr _ hnd hlen h, hread]
  · rw [handle_eq_buttonUp p env hdr _ hnd hlen h, hread]

theorem handle_key_button_witness :
    (opcodeOf [0, 3, 0, 4] = samplePayload.OP_KEY_DOWN ∧
      (handle samplePayload (sampleEnv 0) true ([0, 3, 0, 4] ++ 0 :: 0 :: 0 :: 65 :: [])).effects
        = [.KeyDown 65]) ∧
    (opcodeOf [0, 4, 0, 4] = samplePayload.OP_KEY_UP ∧
      (handle samplePayload (sampleEnv 0) true ([0, 4, 0, 4] ++ 0 :: 0 :: 1 :: 2 :: [])).effects
        = [.KeyUp 258]) ∧
    (opcodeOf [0, 5, 0, 4] = samplePayload.OP_BTN_DOWN ∧
      (handle samplePayload (sampleEnv 0) true ([0, 5, 0, 4] ++ 0 :: 0 :: 0 :: 1 :: [])).effects
        = [.ButtonDown 1]) ∧
    (opcodeOf [0, 6, 0, 4] = samplePayload.OP_BTN_UP ∧
      (handle samplePayload (sampleEnv 0) true
        ([0, 6, 0, 4] ++ 0xff :: 0xff :: 0xff :: 0xff :: [])).effects
        = [.ButtonUp 4294967295]) :=
  ⟨⟨by decide, ((handle_key_button samplePayload (sampleEnv 0) [0, 3, 0, 4] [] 0 0 0 65
      (by decide) (by decide)).1 (by decide)).trans (by decide)⟩,
   ⟨by decide, ((handle_key_button samplePayload (sampleEnv 0) [0, 4, 0, 4] [] 0 0 1 2
      (by decide) (by decide)).2.1 (by decide)).trans (by decide)⟩,
   ⟨by decide, ((handle_key_button samplePayload (sampleEnv 0) [0, 5, 0, 4] [] 0 0 0 1
      (by decide) (by decide)).2.2.1 (by decide)).trans (by decide)⟩,
   ⟨by decide, ((handle_key_button samplePayload (sampleEnv 0) [0, 6, 0, 4] [] 0xff 0xff 0xff
      0xff (by decide) (by decide)).2.2.2 (by decide)).trans (by decide)⟩⟩

/-- C14: a TouchBegin, TouchUpdate or TouchEnd message from the host with at
least nine body bytes makes exactly one call, the touch operation of the same
name, with the id the big-endian unsigned 32-bit value of bytes 0 to 3, `x`
and `y` the big-endian signed 16-bit values of bytes 4 to 5 and 6 to 7, and
the pressure byte 8; nothing is sent. -/
theorem handle_touch (p : Payload) (env : Env) (hdr rest : List Byte)
    (b0 b1 b2 b3 b4 b5 b6 b7 b8 : Byte)
    (hnd : p.requestOps.Nodup) (hlen : hdr.length = headerSize) :
    (opcodeOf hdr = p.OP_TOUCH_BEGIN →
      (handle p env true
        (hdr ++ b0 :: b1 :: b2 :: b3 :: b4 :: b5 :: b6 :: b7 :: b8 :: rest)).effects =
        [.TouchBegin (16777216 * b0.val + 65536 * b1.val + 256 * b2.val + b3.val)
          (int16 (256 * b4.val + b5.val)) (int16 (256 * b6.val + b7.val)) b8.val]) ∧
    (opcodeOf hdr = p.OP_TOUCH_UPDATE →
      (handle p env true
        (hdr ++ b0 :: b1 :: b2 :: b3 :: b4 :: b5 :: b6 :: b7 :: b8 :: rest)).effects =
        [.TouchUpdate (16777216 * b0.val + 65536 * b1.val + 256 * b2.val + b3.val)
          (int16 (256 * b4.val + b5.val)) (int16 (256 * b6.val + b7.val)) b8.val]) ∧
    (opcodeOf hdr = p.OP_TOUCH_END →
      (handle p env true
        (hdr ++ b0 :: b1 :: b2 :: b3 :: b4 :: b5 :: b6 :: b7 :: b8 :: rest)).effects =
        [.TouchEnd (16777216 * b0.val + 65536 * b1.val + 256 * b2.val + b3.val)
          (int16 (256 * b4.val + b5.val)) (int16 (256 * b6.val + b7.val)) b8.val]) := by
  have hread : readTouch (b0 :: b1 :: b2 :: b3 :: b4 :: b5 :: b6 :: b7 :: b8 :: rest) =
      .ok (⟨16777216 * b0.val + 65536 * b1.val + 256 * b2.val + b3.val,
        int16 (256 * b4.val + b5.val), int16 (256 * b6.val + b7.val), b8.val⟩, rest) := by
    simp [readTouch, readFull, beNat_four, beNat_two, beNat_one]
  refine ⟨fun h => ?_, fun h => ?_, fun h => ?_⟩
  · rw [handle_eq_touchBegin p env hdr _ hnd hlen h, hread]
  · rw [handle_eq_touchUpdate p env hdr _ hnd hlen h, hread]
  · rw [handle_eq_touchEnd p env hdr _ hnd hlen h, hread]

theorem handle_touch_witness :
    (opcodeOf [0, 8, 0, 9] = samplePayload.OP_TOUCH_BEGIN ∧
      (handle samplePayload (sampleEnv 0) true
        ([0, 8, 0, 9] ++ 0 :: 0 :: 0 :: 7 :: 0 :: 100 :: 0xff :: 0xff :: 200 :: [])).effects
        = [.TouchBegin 7 100 (-1) 200]) ∧
    (opcodeOf [0, 9, 0, 9] = samplePayload.OP_TOUCH_UPDATE ∧
      (handle samplePayload (sampleEnv 0) true
        ([0, 9, 0, 9] ++ 0 :: 0 :: 0 :: 7 :: 0 :: 100 :: 0xff :: 0xff :: 200 :: [])).effects
        = [.TouchUpdate 7 100 (-1) 200]) ∧
    (opcodeOf [0, 10, 0, 9] = samplePayload.OP_TOUCH_END ∧
      (handle samplePayload (sampleEnv 0) true
        ([0, 10, 0, 9] ++ 0 :: 0 :: 0 :: 7 :: 0 :: 100 :: 0xff :: 0xff :: 200 :: [])).effects
        = [.TouchEnd 7 100 (-1) 200]) :=
  ⟨⟨by decide, ((handle_touch samplePayload (sampleEnv 0) [0, 8, 0, 9] [] 0 0 0 7 0 100 0xff
      0xff 200 (by decide) (by decide)).1 (by decide)).trans (by decide)⟩,
   ⟨by decide, ((handle_touch samplePayload (sampleEnv 0) [0, 9, 0, 9] [] 0 0 0 7 0 100 0xff
      0xff 200 (by decide) (by decide)).2.1 (by decide)).trans (by decide)⟩,
   ⟨by decide, ((handle_touch samplePayload (sampleEnv 0) [0, 10, 0, 9] [] 0 0 0 7 0 100 0xff
      0xff 200 (by decide) (by decide)).2.2 (by decide)).trans (by decide)⟩⟩

/-! ## The Pong reply, as its receiver decodes it -/

theorem readPongMessage_write (p : Payload) (h : Header) (ping : List Byte) (a b : Nat)
    (hping : ping.length = p.pingSize) :
    readPongMessage p (writeHeader h ++ writePong p (decodeFields p.pingFields ping) a b) =
      .ok ⟨⟨h.Event % 2 ^ 16, h.Length % 2 ^ 16⟩, decodeFields p.pingFields ping,
        a % 2 ^ 32, b % 2 ^ 32⟩ := by
  have hrt := encodeFields_decodeFields p.pingFields ping hping
  have hread : readPing p (ping ++ (putBE 4 a ++ putBE 4 b)) =
      .ok (decodeFields p.pingFields ping, putBE 4 a ++ putBE 4 b) := by
    simp [readPing, readFull_append _ ping _ hping]
  have hl : (putBE 4 a ++ putBE 4 b).length = 8 := by simp [putBE_length]
  have hfull : readFull 8 (putBE 4 a ++ putBE 4 b) = .ok (putBE 4 a ++ putBE 4 b, []) := by
    have := readFull_append 8 (putBE 4 a ++ putBE 4 b) [] hl
    rwa [List.append_nil] at this
  have ht : (putBE 4 a ++ putBE 4 b).take 4 = putBE 4 a := by
    simp [List.take_append_of_le_length, putBE_length]
  have hdp : (putBE 4 a ++ putBE 4 b).drop 4 = putBE 4 b := by
    simp [List.drop_append_of_le_length, putBE_length]
  simp only [readPongMessage, readHeader_writeHeader, writePong, hrt, List.append_assoc, hread,
    hfull, ht, hdp, beNat_putBE]
  norm_num

theorem handle_ping_decoded (p : Payload) (env : Env) (isHost : Bool)
    (hdr ping rest : List Byte)
    (hnd : p.requestOps.Nodup) (hlen : hdr.length = headerSize)
    (hop : opcodeOf hdr = p.OP_PING) (hping : ping.length = p.pingSize) :
    (handle p env isHost (hdr ++ ping ++ rest)).effects =
      [.Send (writeHeader ⟨p.OP_PONG, 19⟩ ++ writePong p (decodeFields p.pingFields ping)
        (uint32 (uint64 env.unixMilli / MaxUint32))
        (uint32 (uint64 env.unixMilli % MaxUint32)))] ∧
    readPongMessage p (writeHeader ⟨p.OP_PONG, 19⟩ ++
        writePong p (decodeFields p.pingFields ping)
          (uint32 (uint64 env.unixMilli / MaxUint32))
          (uint32 (uint64 env.unixMilli % MaxUint32))) =
      .ok ⟨⟨p.OP_PONG % 2 ^ 16, 19⟩, decodeFields p.pingFields ping,
        uint64 env.unixMilli / (2 ^ 32 - 1) % 2 ^ 32, uint64 env.unixMilli % (2 ^ 32 - 1)⟩ := by
  have hread : readPing p (ping ++ rest) = .ok (decodeFields p.pingFields ping, rest) := by
    simp [readPing, readFull_append _ ping rest hping]
  constructor
  · rw [List.append_assoc, handle_eq_ping p env isHost hdr (ping ++ rest) hnd hlen hop, hread]
  · rw [readPongMessage_write p _ ping _ _ hping]
    have h2 : uint64 env.unixMilli % (2 ^ 32 - 1) % 2 ^ 32 = uint64 env.unixMilli % (2 ^ 32 - 1) :=
      Nat.mod_eq_of_lt (lt_trans (Nat.mod_lt _ (by norm_num)) (by norm_num))
    simp only [uint32, MaxUint32, Nat.mod_mod, h2]
    norm_num

/-- Sizes in the reply: the header always declares length 19, and the Pong
body that follows it is the Ping width plus eight bytes long. -/
theorem handle_ping_reply_sizes (p : Payload) (env : Env) (isHost : Bool)
    (hdr ping rest : List Byte)
    (hnd : p.requestOps.Nodup) (hlen : hdr.length = headerSize)
    (hop : opcodeOf hdr = p.OP_PING) (hping : ping.length = p.pingSize) :
    ∃ reply, (handle p env isHost (hdr ++ ping ++ rest)).effects = [.Send reply] ∧
      declaredLength (reply.take headerSize) = 19 ∧
      (reply.drop headerSize).length = p.pingSize + 8 := by
  obtain ⟨h1, _⟩ := handle_ping_decoded p env isHost hdr ping rest hnd hlen hop hping
  have hl : (writeHeader ⟨p.OP_PONG, 19⟩).length = headerSize := by
    simp [writeHeader, putBE_length, headerSize]
  refine ⟨_, h1, ?_, ?_⟩
  · rw [List.take_append_of_le_length (le_of_eq hl.symm), ← hl, List.take_length]
    have h2 : (writeHeader ⟨p.OP_PONG, 19⟩).drop 2 = putBE 2 19 := by
      simp [writeHeader, List.drop_append_of_le_length, putBE_length]
    rw [declaredLength, h2, beNat_putBE]
    norm_num
  · rw [← hl, List.drop_left]
    simp only [writePong, List.length_append, putBE_length,
      encodeFields_length p.pingFields ping hping, Payload.pingSize]

/-- C16: with `ts` the unsigned 64-bit clock value captured while answering a
Ping, the two server-timestamp words of the Pong sent are
`ServerTs1 = (ts / (2^32 - 1)) % 2^32` and `ServerTs2 = ts % (2^32 - 1)`:
quotient and remainder by the maximum unsigned 32-bit value, each truncated to
32 bits. -/
theorem handle_ping_timestamp_split (p : Payload) (env : Env) (isHost : Bool)
    (hdr ping rest : List Byte) (ts : Nat)
    (hnd : p.requestOps.Nodup) (hlen : hdr.length = headerSize)
    (hop : opcodeOf hdr = p.OP_PING) (hping : ping.length = p.pingSize)
    (hts : uint64 env.unixMilli = ts) :
    ∃ reply m, (handle p env isHost (hdr ++ ping ++ rest)).effects = [.Send reply] ∧
      readPongMessage p reply = .ok m ∧
      m.ServerTs1 = ts / (2 ^ 32 - 1) % 2 ^ 32 ∧
      m.ServerTs2 = ts % (2 ^ 32 - 1) ∧
      m.ServerTs1 < 2 ^ 32 ∧ m.ServerTs2 < 2 ^ 32 := by
  obtain ⟨h1, h2⟩ := handle_ping_decoded p env isHost hdr ping rest hnd hlen hop hping
  rw [hts] at h1 h2
  refine ⟨_, _, h1, h2, rfl, rfl, ?_, ?_⟩
  · exact Nat.mod_lt _ (by norm_num)
  · exact lt_trans (Nat.mod_lt _ (by norm_num)) (by norm_num)

theorem handle_ping_timestamp_split_witness :
    ∃ reply m, (handle samplePayload (sampleEnv 1700000000000) false
        ([0, 7, 0, 8] ++ [1, 2, 3, 4, 5, 6, 7, 8] ++ [])).effects = [.Send reply] ∧
      readPongMessage samplePayload reply = .ok m ∧
      m.ServerTs1 = 1700000000000 / (2 ^ 32 - 1) % 2 ^ 32 ∧
      m.ServerTs2 = 1700000000000 % (2 ^ 32 - 1) ∧
      m.ServerTs1 < 2 ^ 32 ∧ m.ServerTs2 < 2 ^ 32 :=
  handle_ping_timestamp_split samplePayload (sampleEnv 1700000000000) false [0, 7, 0, 8]
    [1, 2, 3, 4, 5, 6, 7, 8] [] 1700000000000 (by decide) (by decide) (by decide) (by decide)
    (by decide)

/-- C17: for every clock value `ts` below `2^32 * (2^32 - 1)`, the words of the
Pong sent satisfy `ServerTs1 * (2^32 - 1) + ServerTs2 = ts` with
`ServerTs2 < 2^32 - 1`: the matching formula recovers the captured timestamp
exactly. -/
theorem handle_ping_timestamp_recovered (p : Payload) (env : Env) (isHost : Bool)
    (hdr ping rest : List Byte) (ts : Nat)
    (hnd : p.requestOps.Nodup) (hlen : hdr.length = headerSize)
    (hop : opcodeOf hdr = p.OP_PING) (hping : ping.length = p.pingSize)
    (hts : uint64 env.unixMilli = ts) (hlt : ts < 2 ^ 32 * (2 ^ 32 - 1)) :
    ∃ reply m, (handle p env isHost (hdr ++ ping ++ rest)).effects = [.Send reply] ∧
      readPongMessage p reply = .ok m ∧
      m.ServerTs1 * (2 ^ 32 - 1) + m.ServerTs2 = ts ∧
      m.ServerTs2 < 2 ^ 32 - 1 := by
  obtain ⟨h1, h2⟩ := handle_ping_decoded p env isHost hdr ping rest hnd hlen hop hping
  rw [hts] at h1 h2
  refine ⟨_, _, h1, h2, ?_, ?_⟩
  · show ts / (2 ^ 32 - 1) % 2 ^ 32 * (2 ^ 32 - 1) + ts % (2 ^ 32 - 1) = ts
    norm_num at hlt ⊢
    omega
  · show ts % (2 ^ 32 - 1) < 2 ^ 32 - 1
    exact Nat.mod_lt _ (by norm_num)

theorem handle_ping_timestamp_recovered_witness :
    ∃ reply m, (handle samplePayload (sampleEnv 1700000000000) true
        ([0, 7, 0, 8] ++ [1, 2, 3, 4, 5, 6, 7, 8] ++ [])).effects = [.Send reply] ∧
      readPongMessage samplePayload reply = .ok m ∧
      m.ServerTs1 * (2 ^ 32 - 1) + m.ServerTs2 = 1700000000000 ∧
      m.ServerTs2 < 2 ^ 32 - 1 :=
  handle_ping_timestamp_recovered samplePayload (sampleEnv 1700000000000) true [0, 7, 0, 8]
    [1, 2, 3, 4, 5, 6, 7, 8] [] 1700000000000 (by decide) (by decide) (by decide) (by decide)
    (by decide) (by decide)

/-- C18: the Pong reply the handler emits round-trips: decoding the reply
bytes in the layout it was written in yields exactly the header `{Pong, 19}`,
the echoed Ping fields and the two words that were encoded, and re-encoding
the decoded message gives back the identical bytes. -/
theorem handle_ping_reply_roundtrip (p : Payload) (env : Env) (isHost : Bool)
    (hdr ping rest : List Byte)
    (hnd : p.requestOps.Nodup) (hlen : hdr.length = headerSize)
    (hop : opcodeOf hdr = p.OP_PING) (hping : ping.length = p.pingSize)
    (hpong : p.OP_PONG < 2 ^ 16) :
    ∃ reply m, (handle p env isHost (hdr ++ ping ++ rest)).effects = [.Send reply] ∧
      readPongMessage p reply = .ok m ∧
      writePongMessage p m = reply ∧
      m.header = ⟨p.OP_PONG, 19⟩ ∧
      m.ping = decodeFields p.pingFields ping ∧
      m.ServerTs1 = uint32 (uint64 env.unixMilli / MaxUint32) ∧
      m.ServerTs2 = uint32 (uint64 env.unixMilli % MaxUint32) := by
  obtain ⟨h1, h2⟩ := handle_ping_decoded p env isHost hdr ping rest hnd hlen hop hping
  have e0 : p.OP_PONG % 2 ^ 16 = p.OP_PONG := Nat.mod_eq_of_lt hpong
  have e1 : uint64 env.unixMilli / (2 ^ 32 - 1) % 2 ^ 32 =
      uint32 (uint64 env.unixMilli / MaxUint32) := rfl
  have e2 : uint64 env.unixMilli % (2 ^ 32 - 1) =
      uint32 (uint64 env.unixMilli % MaxUint32) := by
    have h3 : uint64 env.unixMilli % (2 ^ 32 - 1) < 2 ^ 32 :=
      lt_trans (Nat.mod_lt _ (by norm_num)) (by norm_num)
    exact (Nat.mod_eq_of_lt h3).symm
  rw [e0, e1, e2] at h2
  exact ⟨_, _, h1, h2, rfl, rfl, rfl, rfl, rfl⟩

theorem handle_ping_reply_roundtrip_witness :
    ∃ reply m, (handle samplePayload (sampleEnv 1700000000000) false
        ([0, 7, 0, 8] ++ [1, 2, 3, 4, 5, 6, 7, 8] ++ [9])).effects = [.Send reply] ∧
      readPongMessage samplePayload reply = .ok m ∧
      writePongMessage samplePayload m = reply ∧
      m.header = ⟨samplePayload.OP_PONG, 19⟩ ∧
      m.ping = decodeFields samplePayload.pingFields [1, 2, 3, 4, 5, 6, 7, 8] ∧
      m.ServerTs1 = uint32 (uint64 (sampleEnv 1700000000000).unixMilli / MaxUint32) ∧
      m.ServerTs2 = uint32 (uint64 (sampleEnv 1700000000000).unixMilli % MaxUint32) :=
  handle_ping_reply_roundtrip samplePayload (sampleEnv 1700000000000) false [0, 7, 0, 8]
    [1, 2, 3, 4, 5, 6, 7, 8] [9] (by decide) (by decide) (by decide) (by decide) (by decide)

/-- C20: with `ts` the unsigned 64-bit clock value captured, the words the
handler writes equal the conventional split `(ts / 2^32, ts % 2^32)` if and
only if `ts < 2^32 - 1`; from `2^32 - 1` on the two splits differ and
`ServerTs1 * 2^32 + ServerTs2` is not `ts`. -/
theorem handle_ping_split_vs_conventional (p : Payload) (env : Env) (isHost : Bool)
    (hdr ping rest : List Byte) (ts : Nat)
    (hnd : p.requestOps.Nodup) (hlen : hdr.length = headerSize)
    (hop : opcodeOf hdr = p.OP_PING) (hping : ping.length = p.pingSize)
    (hts : uint64 env.unixMilli = ts) :
    ∃ reply m, (handle p env isHost (hdr ++ ping ++ rest)).effects = [.Send reply] ∧
      readPongMessage p reply = .ok m ∧
      ((m.ServerTs1 = ts / 2 ^ 32 ∧ m.ServerTs2 = ts % 2 ^ 32) ↔ ts < 2 ^ 32 - 1) ∧
      (2 ^ 32 - 1 ≤ ts → m.ServerTs1 * 2 ^ 32 + m.ServerTs2 ≠ ts) := by
  obtain ⟨h1, h2⟩ := handle_ping_decoded p env isHost hdr ping rest hnd hlen hop hping
  have hb : ts < 2 ^ 64 := hts ▸ uint64_lt env.unixMilli
  rw [hts] at h1 h2
  refine ⟨_, _, h1, h2, ?_, ?_⟩
  · show (ts / (2 ^ 32 - 1) % 2 ^ 32 = ts / 2 ^ 32 ∧ ts % (2 ^ 32 - 1) = ts % 2 ^ 32) ↔
      ts < 2 ^ 32 - 1
    norm_num at hb ⊢
    omega
  · show 2 ^ 32 - 1 ≤ ts → ts / (2 ^ 32 - 1) % 2 ^ 32 * 2 ^ 32 + ts % (2 ^ 32 - 1) ≠ ts
    norm_num at hb ⊢
    omega

theorem handle_ping_split_vs_conventional_witness :
    ∃ reply m, (handle samplePayload (sampleEnv 4294967295) false
        ([0, 7, 0, 8] ++ [1, 2, 3, 4, 5, 6, 7, 8] ++ [])).effects = [.Send reply] ∧
      readPongMessage samplePayload reply = .ok m ∧
      ((m.ServerTs1 = 4294967295 / 2 ^ 32 ∧ m.ServerTs2 = 4294967295 % 2 ^ 32) ↔
        4294967295 < 2 ^ 32 - 1) ∧
      2 ^ 32 - 1 ≤ 4294967295 ∧ m.ServerTs1 * 2 ^ 32 + m.ServerTs2 ≠ 4294967295 := by
  obtain ⟨reply, m, h1, h2, h3, h4⟩ :=
    handle_ping_split_vs_conventional samplePayload (sampleEnv 4294967295) false [0, 7, 0, 8]
      [1, 2, 3, 4, 5, 6, 7, 8] [] 4294967295 (by decide) (by decide) (by decide) (by decide)
      (by decide)
  exact ⟨reply, m, h1, h2, h3, by decide, h4 (by decide)⟩

/-! ## Trailing bytes -/

/-- C19: bytes that follow the header and the body width the handler reads
for the message's opcode and variant are ignored: for every host flag and
clock value, appending arbitrary extra bytes leaves the whole outcome
unchanged (result, calls and their arguments, reply bytes). -/
theorem handle_trailing_bytes_ignored (p : Payload) (env : Env) (isHost : Bool)
    (hdr body extra : List Byte) (hlen : hdr.length = headerSize)
    (hbody : p.consumed isHost (opcodeOf hdr) (declaredLength hdr) ≤ body.length) :
    handle p env isHost (hdr ++ body ++ extra) = handle p env isHost (hdr ++ body) := by
  rw [List.append_assoc]
  simp only [handle, readHeader_append hdr _ hlen]
  simp only [Payload.consumed, Payload.bodyWidth, List.mem_cons, List.mem_singleton,
    List.not_mem_nil, or_false] at hbody
  by_cases hm : opcodeOf hdr = p.OP_MOVE
  · simp only [hm, if_true, or_true, true_or, Option.getD_some] at hbody ⊢
    obtain ⟨v, r1, r2, e1, e2⟩ := readMove_extra body extra hbody
    rw [e1, e2]
  simp only [hm, if_false, false_or] at hbody ⊢
  by_cases hp : opcodeOf hdr = p.OP_PING
  · simp only [hp, if_true, or_true, Option.getD_some] at hbody ⊢
    obtain ⟨v, r1, r2, e1, e2⟩ := readPing_extra p body extra hbody
    rw [e1, e2]
  simp only [hp, if_false, or_false] at hbody ⊢
  cases isHost with
  | false => rfl
  | true =>
    simp only [if_true, Bool.not_true, Bool.false_eq_true, if_false] at hbody ⊢
    by_cases hs : opcodeOf hdr = p.OP_SCROLL
    · simp only [hs, if_true, Option.getD_some] at hbody ⊢
      by_cases h4 : declaredLength hdr = 4
      · simp only [h4, if_true] at hbody ⊢
        obtain ⟨v, r1, r2, e1, e2⟩ := readScrollOld_extra body extra hbody
        rw [e1, e2]
      · simp only [h4, if_false] at hbody ⊢
        obtain ⟨v, r1, r2, e1, e2⟩ := readScroll_extra body extra hbody
        rw [e1, e2]
    simp only [hs, if_false] at hbody ⊢
    by_cases hk : opcodeOf hdr = p.OP_KEY_DOWN ∨ opcodeOf hdr = p.OP_KEY_UP ∨
        opcodeOf hdr = p.OP_BTN_DOWN ∨ opcodeOf hdr = p.OP_BTN_UP
    · simp only [hk, if_true, Option.getD_some] at hbody
      obtain ⟨v, r1, r2, e1, e2⟩ := readKey_extra body extra hbody
      rw [e1, e2]
      split_ifs <;> first | with_reducible rfl | omega
    simp only [hk, if_false] at hbody
    by_cases ht : opcodeOf hdr = p.OP_TOUCH_BEGIN ∨ opcodeOf hdr = p.OP_TOUCH_UPDATE ∨
        opcodeOf hdr = p.OP_TOUCH_END
    · simp only [ht, if_true, Option.getD_some] at hbody
      obtain ⟨v, r1, r2, e1, e2⟩ := readTouch_extra body extra hbody
      rw [e1, e2]
      simp only [not_or] at hk
      simp only [hk, if_false]
    · simp only [not_or] at hk ht
      simp only [hk, ht, if_false]

theorem handle_trailing_bytes_ignored_witness :
    handle samplePayload (sampleEnv 5) true ([0, 8, 0, 9] ++ [0, 0, 0, 7, 0, 1, 0, 2, 3] ++ [4, 4])
      = handle samplePayload (sampleEnv 5) true ([0, 8, 0, 9] ++ [0, 0, 0, 7, 0, 1, 0, 2, 3]) :=
  handle_trailing_bytes_ignored samplePayload (sampleEnv 5) true [0, 8, 0, 9]
    [0, 0, 0, 7, 0, 1, 0, 2, 3] [4, 4] (by decide) (by decide)

end Neko
